import Mathlib

/-!
Verification of the auto-chat client core against its design specification.

The definitions below are a shallow embedding of the streaming / task-polling
client code (`src/services/chatApi.ts` and `src/components/ChatContainer.tsx`):
JavaScript strings are modelled as `List Char`, promise-returning functions as
pure functions threading explicit state, and the callback-driven flows as folds
over explicit event scripts.
-/

set_option linter.unusedVariables false

namespace AutoChat

/-! ## SSE decoding loop of `sendMessageStream` (chatApi.ts lines 203-253) -/

/-- A decoded server-sent event: an event type tag plus the raw data payload,
both kept as character lists mirroring JavaScript strings. -/
structure SSEvent where
  type : List Char
  data : List Char
  deriving DecidableEq, Repr

/-- The line marker `event: ` tested by `line.startsWith('event: ')`. -/
def eventMark : List Char := "event: ".data

/-- The line marker `data: ` tested by `line.startsWith('data: ')`. -/
def dataMark : List Char := "data: ".data

/-- The pending-event accumulator of the line loop: the JavaScript locals
`currentEvent` (nullable) and `currentData`. -/
structure PendState where
  event : Option (List Char)
  data : List Char
  deriving DecidableEq, Repr

/-- The initial accumulator: `currentEvent = null`, `currentData = ''`. -/
def freshPend : PendState := ⟨none, []⟩

/-- JavaScript `String.prototype.trim`, as used in `line.substring(7).trim()`. -/
def trimChars (s : List Char) : List Char :=
  ((s.dropWhile Char.isWhitespace).reverse.dropWhile Char.isWhitespace).reverse

/-- JavaScript `currentEvent || 'data'` (chatApi.ts line 238): both `null` and
an empty pending type are falsy, so either defaults the emitted type to
`data`. -/
def jsOrData (x : Option (List Char)) : List Char :=
  match x with
  | none => "data".data
  | some e => if e = [] then "data".data else e

/-- One iteration of the `for (const line of lines)` body
(chatApi.ts lines 229-251): an `event: ` line overwrites the pending type, a
`data: ` line overwrites the pending payload, an empty line emits the pending
event when the payload is nonempty (the type defaulting to `data` via
`currentEvent || 'data'`) and resets the accumulator, and every other line is
ignored. -/
def processLine (st : PendState) (line : List Char) : PendState × List SSEvent :=
  if eventMark.isPrefixOf line then
    ({ st with event := some (trimChars (line.drop 7)) }, [])
  else if dataMark.isPrefixOf line then
    ({ st with data := line.drop 6 }, [])
  else if line = [] then
    if st.data ≠ [] then
      (freshPend, [⟨jsOrData st.event, st.data⟩])
    else
      (freshPend, [])
  else
    (st, [])

/-- The whole `for (const line of lines)` loop: fold `processLine` over the
complete lines of one chunk, collecting emitted events in order. -/
def processLines (st : PendState) : List (List Char) → PendState × List SSEvent
  | [] => (st, [])
  | l :: ls =>
    let r := processLine st l
    let rest := processLines r.1 ls
    (rest.1, r.2 ++ rest.2)

/-- JavaScript `buffer.split('\n')`: always returns at least one (possibly
empty) segment; a trailing newline yields a trailing empty segment. -/
def splitLines : List Char → List (List Char)
  | [] => [[]]
  | c :: cs =>
    if c = '\n' then [] :: splitLines cs
    else
      match splitLines cs with
      | l :: ls => (c :: l) :: ls
      | [] => [[c]]

/-- One iteration of the `while (true)` read loop (chatApi.ts lines 219-252):
append the chunk to the carried buffer, split on newlines, keep the trailing
partial line as the new buffer (`buffer = lines.pop() || ''`), and run the line
loop on the complete lines. Crucially, the source declares `currentEvent` and
`currentData` inside the `while` body, so the line loop starts from
`freshPend` on every chunk. -/
def processChunk (buffer chunk : List Char) : List Char × List SSEvent :=
  let parts := splitLines (buffer ++ chunk)
  (parts.getLastD [], (processLines freshPend parts.dropLast).2)

/-- Run the read loop over a whole sequence of chunks, starting from a given
buffer, returning the concatenation of all emitted events in order. -/
def sseRunFrom (buffer : List Char) : List (List Char) → List SSEvent
  | [] => []
  | c :: cs =>
    let r := processChunk buffer c
    r.2 ++ sseRunFrom r.1 cs

/-- The event sequence that `sendMessageStream` delivers to its callbacks when
the response body arrives as the given chunks (buffer initially empty). -/
def sendMessageStreamEvents (chunks : List String) : List SSEvent :=
  sseRunFrom [] (chunks.map String.data)

/-- The type written by the last `event: ` line of a block of lines, if any:
a value coming from later lines overrides one written by an earlier line
(last write wins, the wire rule the specification describes). -/
def blockEventType : List (List Char) → Option (List Char)
  | [] => none
  | l :: ls =>
    match blockEventType ls with
    | some e => some e
    | none => if eventMark.isPrefixOf l then some (trimChars (l.drop 7)) else none

/-- The payload written by the last `data: ` line of a block of lines, if any
(last write wins). -/
def blockPayload : List (List Char) → Option (List Char)
  | [] => none
  | l :: ls =>
    match blockPayload ls with
    | some d => some d
    | none => if dataMark.isPrefixOf l then some (l.drop 6) else none

/-- What a blank line flushes after a block of non-blank lines: one event when
the pending payload is nonempty, with the type defaulting to `data` when no
event line was seen or the last one's trimmed type is empty (the falsy cases
of `currentEvent || 'data'`), and nothing otherwise. -/
def blockEmission (block : List (List Char)) : List SSEvent :=
  match blockPayload block with
  | none => []
  | some d => if d = [] then [] else [⟨jsOrData (blockEventType block), d⟩]

/-- The flush rule as the claim words it: the emitted type defaults to `data`
only when no event line was seen, so an event line always has its trimmed
type — even an empty one — carried into the emission. Stated from the claim's
words, to be compared with the program's flush. -/
def claimBlockEmission (block : List (List Char)) : List SSEvent :=
  match blockPayload block with
  | none => []
  | some d => if d = [] then [] else [⟨(blockEventType block).getD ("data".data), d⟩]

/-- The pending accumulator after folding a blank-free block of lines over a
starting accumulator: each marker's last write overrides the start value. -/
def pendAfter (st : PendState) (block : List (List Char)) : PendState :=
  ⟨match blockEventType block with
    | some e => some e
    | none => st.event,
   match blockPayload block with
    | some d => d
    | none => st.data⟩

lemma eventMark_not_dataMark {l : List Char} (h : eventMark.isPrefixOf l = true) :
    dataMark.isPrefixOf l = false := by
  cases l with
  | nil => simp [eventMark, List.isPrefixOf] at h
  | cons c cs =>
    simp [eventMark, List.isPrefixOf] at h
    simp [dataMark, List.isPrefixOf, ← h.1]

lemma dataMark_not_eventMark {l : List Char} (h : dataMark.isPrefixOf l = true) :
    eventMark.isPrefixOf l = false := by
  cases l with
  | nil => simp [dataMark, List.isPrefixOf] at h
  | cons c cs =>
    simp [dataMark, List.isPrefixOf] at h
    simp [eventMark, List.isPrefixOf, ← h.1]

lemma pendAfter_nil (st : PendState) : pendAfter st [] = st := rfl

lemma pendAfter_cons (st : PendState) (l : List Char) (block : List (List Char))
    (hl : l ≠ []) :
    pendAfter st (l :: block) = pendAfter (processLine st l).1 block := by
  by_cases hev : eventMark.isPrefixOf l = true
  · have hdat := eventMark_not_dataMark hev
    simp only [pendAfter, blockEventType, blockPayload, processLine, hev, hdat,
      if_true, if_false, Bool.false_eq_true]
    cases blockEventType block <;> cases blockPayload block <;> rfl
  · by_cases hdat : dataMark.isPrefixOf l = true
    · simp only [pendAfter, blockEventType, blockPayload, processLine, hev, hdat,
        if_true, if_false, Bool.false_eq_true]
      cases blockEventType block <;> cases blockPayload block <;> rfl
    · simp only [pendAfter, blockEventType, blockPayload, processLine, hev, hdat,
        hl, if_false, Bool.false_eq_true]
      cases blockEventType block <;> cases blockPayload block <;> rfl

lemma processLine_ne_nil_no_emit (st : PendState) (l : List Char) (hl : l ≠ []) :
    (processLine st l).2 = [] := by
  by_cases hev : eventMark.isPrefixOf l = true
  · simp [processLine, hev]
  · by_cases hdat : dataMark.isPrefixOf l = true
    · simp [processLine, hev, hdat]
    · simp [processLine, hev, hdat, hl]

lemma processLines_block (block : List (List Char)) (h : [] ∉ block)
    (st : PendState) : processLines st block = (pendAfter st block, []) := by
  induction block generalizing st with
  | nil => simp [processLines, pendAfter_nil]
  | cons l ls ih =>
    have hl : l ≠ [] := fun hc => h (hc ▸ List.mem_cons_self l ls)
    have hls : [] ∉ ls := fun hc => h (List.mem_cons_of_mem l hc)
    simp only [processLines, ih hls, pendAfter_cons st l ls hl,
      processLine_ne_nil_no_emit st l hl, List.nil_append]

lemma processLines_append (st : PendState) (xs ys : List (List Char)) :
    processLines st (xs ++ ys) =
      ((processLines (processLines st xs).1 ys).1,
        (processLines st xs).2 ++ (processLines (processLines st xs).1 ys).2) := by
  induction xs generalizing st with
  | nil => simp [processLines]
  | cons l ls ih => simp [processLines, ih]

lemma processLine_blank (st : PendState) :
    processLine st [] =
      (freshPend,
        if st.data = [] then [] else [⟨jsOrData st.event, st.data⟩]) := by
  have hev : eventMark.isPrefixOf ([] : List Char) = false := by decide
  have hdat : dataMark.isPrefixOf ([] : List Char) = false := by decide
  by_cases hd : st.data = [] <;> simp [processLine, hev, hdat, hd]

/-- C2 amended: over a sequence of complete lines, an `event: ` line sets the
pending type, a `data: ` line sets the pending payload with last write
winning, and a blank line emits the pending event exactly when it carries a
nonempty payload — with the type defaulting to `data` when no event line was
seen or when the last event line's trimmed type is the empty string (the
falsy cases of `currentEvent || 'data'`) — then resets the state; events come
in line order. Stated as: processing a blank-free block, then a blank line,
then any further lines, emits the block's flush (determined by the block's
last marker writes) followed by the events of the remaining lines processed
from a fresh state. -/
theorem sendMessageStream_line_protocol (block rest : List (List Char))
    (h : [] ∉ block) :
    processLines freshPend (block ++ [] :: rest) =
      ((processLines freshPend rest).1,
        blockEmission block ++ (processLines freshPend rest).2) := by
  rw [processLines_append, processLines_block block h]
  simp only [processLines, processLine_blank]
  have hflush :
      (if (pendAfter freshPend block).data = [] then ([] : List SSEvent)
        else [⟨jsOrData (pendAfter freshPend block).event,
          (pendAfter freshPend block).data⟩]) = blockEmission block := by
    simp only [pendAfter, freshPend, blockEmission]
    cases hbp : blockPayload block with
    | none => simp
    | some d =>
      cases hbe : blockEventType block with
      | none => by_cases hd : d = [] <;> simp [hd]
      | some e => by_cases hd : d = [] <;> simp [hd]
  rw [hflush]
  simp

/-- Witness for the amended C2 at a concrete block: the block
`event: end / data: a / data: b` followed by a blank line and one trailing
incomplete block emits exactly one event of type `end` with the last payload
`b`. -/
theorem sendMessageStream_line_protocol_witness :
    ([] ∉ [("event: end").data, ("data: a").data, ("data: b").data]) ∧
      processLines freshPend
          ([("event: end").data, ("data: a").data, ("data: b").data] ++
            [] :: [("data: c").data]) =
        ((processLines freshPend [("data: c").data]).1,
          blockEmission
              [("event: end").data, ("data: a").data, ("data: b").data] ++
            (processLines freshPend [("data: c").data]).2) :=
  ⟨by decide,
    sendMessageStream_line_protocol
      [("event: end").data, ("data: a").data, ("data: b").data]
      [("data: c").data] (by decide)⟩

/-- C2 counterexample: on the block `event: ` / `data: x` — an event line
whose trimmed type is the empty string — followed by a blank line, the line
loop emits an event of type `data`, because the empty pending type is falsy
in `currentEvent || 'data'`; the claim's flush rule, which defaults only when
no event line was seen, predicts the empty type instead, so the two
disagree. -/
theorem sendMessageStream_empty_event_type_counterexample :
    (processLines freshPend [("event: ").data, ("data: x").data, []]).2 =
        [⟨"data".data, "x".data⟩] ∧
      claimBlockEmission [("event: ").data, ("data: x").data] =
        [⟨[], "x".data⟩] ∧
      (processLines freshPend [("event: ").data, ("data: x").data, []]).2 ≠
        claimBlockEmission [("event: ").data, ("data: x").data] := by
  refine ⟨by decide, by decide, by decide⟩

/-- C1: the same SSE byte sequence, fragmented differently into chunks, does
not produce the same events: the pending-event accumulator is declared inside
the per-chunk loop, so a chunk boundary between the `event: ` line and the
`data: ` line loses the type, and a boundary before the terminating blank line
loses the event entirely. -/
theorem sendMessageStream_chunk_boundary_dependent :
    sendMessageStreamEvents ["event: end\ndata: x\n\n"]
        = [⟨"end".data, "x".data⟩] ∧
      sendMessageStreamEvents ["event: end\n", "data: x\n\n"]
        = [⟨"data".data, "x".data⟩] ∧
      sendMessageStreamEvents ["data: hello\n\n"]
        = [⟨"data".data, "hello".data⟩] ∧
      sendMessageStreamEvents ["data: hello\n", "\n"] = [] := by
  decide

/-! ## Task poller `pollBuildTask` (chatApi.ts lines 385-415) -/

/-- Task status values returned by `getBuildTask`. -/
inductive TaskStatus
  | pending
  | processing
  | success
  | failed
  deriving DecidableEq, Repr

/-- The slice of the build-task record the poller inspects. -/
structure BuildTask where
  status : TaskStatus
  error : Option String
  deriving DecidableEq, Repr

/-- JavaScript `x || d` on an optional string: `null` and the empty string are
both falsy, as in `task.error || '构建任务失败'`. -/
def jsOrElse (x : Option String) (d : String) : String :=
  match x with
  | none => d
  | some s => if s = "" then d else s

/-- How a `pollBuildTask` run ends. `cancelled` is the outcome the
specification promises for a caller cancellation; it is part of the model so
that its absence can be stated. -/
inductive PollOutcome
  | success (t : BuildTask)
  | failure (msg : String)
  | timeout
  | cancelled
  deriving DecidableEq, Repr

/-- The `for (let i = 0; i < maxAttempts; i++)` loop of `pollBuildTask`,
with the i-th status fetch modelled as `tasks i`. Returns the outcome together
with the list of tasks passed to `onProgress`, one per fetch, in fetch order.
The type checks mirror the source order: `onProgress` first, then `success`,
then `failed`, then the inter-attempt sleep. -/
def pollBuildTaskGo (tasks : Nat → BuildTask) : Nat → Nat → PollOutcome × List BuildTask
  | _, 0 => (.timeout, [])
  | i, r + 1 =>
    let t := tasks i
    if t.status = .success then (.success t, [t])
    else if t.status = .failed then (.failure (jsOrElse t.error "构建任务失败"), [t])
    else
      let rest := pollBuildTaskGo tasks (i + 1) r
      (rest.1, t :: rest.2)

/-- `pollBuildTask` with a given `maxAttempts`: run the loop from attempt 0;
exhausting the attempts throws `构建任务超时` (the `timeout` outcome). -/
def pollBuildTask (tasks : Nat → BuildTask) (maxAttempts : Nat) :
    PollOutcome × List BuildTask :=
  pollBuildTaskGo tasks 0 maxAttempts

/-- The same loop with the caller's cancellation wishes made explicit:
`cancel i` says whether the caller has cancelled by the time of the sleep that
follows fetch `i`. The sleep in the source is a bare
`await new Promise((resolve) => setTimeout(resolve, interval))`, which consults
no signal, so the loop proceeds identically whatever `cancel` says. -/
def pollBuildTaskUnderCancellation (tasks : Nat → BuildTask) (cancel : Nat → Bool) :
    Nat → Nat → PollOutcome × List BuildTask
  | _, 0 => (.timeout, [])
  | i, r + 1 =>
    let t := tasks i
    if t.status = .success then (.success t, [t])
    else if t.status = .failed then (.failure (jsOrElse t.error "构建任务失败"), [t])
    else
      let rest := pollBuildTaskUnderCancellation tasks cancel (i + 1) r
      (rest.1, t :: rest.2)

lemma pollBuildTaskGo_nonterminal (tasks : Nat → BuildTask) (i r : Nat)
    (hs : (tasks i).status ≠ .success) (hf : (tasks i).status ≠ .failed) :
    pollBuildTaskGo tasks i (r + 1) =
      ((pollBuildTaskGo tasks (i + 1) r).1,
        tasks i :: (pollBuildTaskGo tasks (i + 1) r).2) := by
  simp [pollBuildTaskGo, hs, hf]

/-- C3 part one: a run against statuses that are never terminal performs
exactly `maxAttempts` fetches, reports every fetched task to `onProgress`,
and ends in the timeout outcome. -/
lemma pollBuildTaskGo_timeout (tasks : Nat → BuildTask) (n i : Nat)
    (h : ∀ j, j < n → (tasks (i + j)).status ≠ .success ∧
      (tasks (i + j)).status ≠ .failed) :
    pollBuildTaskGo tasks i n =
      (.timeout, (List.range n).map fun j => tasks (i + j)) := by
  induction n generalizing i with
  | zero => simp [pollBuildTaskGo]
  | succ r ih =>
    have h0 := h 0 (Nat.succ_pos r)
    rw [pollBuildTaskGo_nonterminal tasks i r (by simpa using h0.1) (by simpa using h0.2)]
    have hrest := ih (i + 1) fun j hj => by
      have := h (j + 1) (Nat.succ_lt_succ hj)
      constructor
      · simpa [Nat.add_assoc, Nat.add_comm 1 j] using this.1
      · simpa [Nat.add_assoc, Nat.add_comm 1 j] using this.2
    rw [hrest]
    simp [List.range_succ_eq_map, Nat.add_assoc, Nat.add_comm 1]

lemma pollBuildTaskGo_failed (tasks : Nat → BuildTask) (k i : Nat) (n : Nat)
    (hk : k < n)
    (hnon : ∀ j, j < k → (tasks (i + j)).status ≠ .success ∧
      (tasks (i + j)).status ≠ .failed)
    (hfail : (tasks (i + k)).status = .failed) :
    pollBuildTaskGo tasks i n =
      (.failure (jsOrElse (tasks (i + k)).error "构建任务失败"),
        (List.range (k + 1)).map fun j => tasks (i + j)) := by
  induction k generalizing i n with
  | zero =>
    cases n with
    | zero => exact absurd hk (Nat.lt_irrefl 0)
    | succ r =>
      have hns : (tasks (i + 0)).status ≠ .success := by
        rw [hfail]; intro hc; cases hc
      simp only [Nat.add_zero] at hfail hns
      simp [pollBuildTaskGo, hns, hfail, List.range_succ]
  | succ m ih =>
    cases n with
    | zero => exact absurd hk (Nat.not_lt_zero _)
    | succ r =>
      have h0 := hnon 0 (Nat.succ_pos m)
      rw [pollBuildTaskGo_nonterminal tasks i r (by simpa using h0.1) (by simpa using h0.2)]
      have hrest := ih (i + 1) r (Nat.lt_of_succ_lt_succ hk)
        (fun j hj => by
          have := hnon (j + 1) (Nat.succ_lt_succ hj)
          constructor
          · simpa [Nat.add_assoc, Nat.add_comm 1 j] using this.1
          · simpa [Nat.add_assoc, Nat.add_comm 1 j] using this.2)
        (by simpa [Nat.add_assoc, Nat.add_comm 1 m] using hfail)
      rw [hrest]
      simp only [Prod.mk.injEq]
      constructor
      · simp [Nat.add_assoc, Nat.add_comm 1 m]
      · simp [List.range_succ_eq_map, Nat.add_assoc, Nat.add_comm 1]

/-- C3: a poll whose fetched statuses never reach a terminal state performs
exactly `maxAttempts` fetches, invokes the progress callback on every one of
them, and ends with the timeout rejection; and a poll whose status is `failed`
on fetch `k` (the `k+1`-st fetch, with `k + 1 ≤ maxAttempts`) rejects with the
task's error message right after that fetch, performing `k + 1` fetches and
none beyond. -/
theorem pollBuildTask_timeout_and_failed (tasks : Nat → BuildTask)
    (maxAttempts k : Nat) :
    ((∀ j, j < maxAttempts → (tasks j).status ≠ .success ∧
        (tasks j).status ≠ .failed) →
      pollBuildTask tasks maxAttempts = (.timeout, (List.range maxAttempts).map tasks)) ∧
    (k < maxAttempts →
      (∀ j, j < k → (tasks j).status ≠ .success ∧ (tasks j).status ≠ .failed) →
      (tasks k).status = .failed →
      pollBuildTask tasks maxAttempts =
        (.failure (jsOrElse (tasks k).error "构建任务失败"),
          (List.range (k + 1)).map tasks)) := by
  constructor
  · intro h
    have := pollBuildTaskGo_timeout tasks maxAttempts 0 fun j hj => by
      simpa using h j hj
    simpa [pollBuildTask] using this
  · intro hk hnon hfail
    have := pollBuildTaskGo_failed tasks k 0 maxAttempts hk
      (fun j hj => by simpa using hnon j hj) (by simpa using hfail)
    simpa [pollBuildTask] using this

/-- Witness for C3: a task stuck in `processing` polled with three attempts
times out after exactly three fetches, and a task that fails on the second
fetch rejects with its error after exactly two fetches. -/
theorem pollBuildTask_timeout_and_failed_witness :
    (pollBuildTask (fun _ => ⟨.processing, none⟩) 3 =
      (.timeout, [⟨.processing, none⟩, ⟨.processing, none⟩, ⟨.processing, none⟩])) ∧
    (pollBuildTask
        (fun j => if j = 1 then ⟨.failed, some "boom"⟩ else ⟨.processing, none⟩) 3 =
      (.failure "boom", [⟨.processing, none⟩, ⟨.failed, some "boom"⟩])) := by
  constructor
  · have := (pollBuildTask_timeout_and_failed (fun _ => ⟨.processing, none⟩) 3 0).1
      (by decide)
    simpa using this
  · have := (pollBuildTask_timeout_and_failed
        (fun j => if j = 1 then ⟨.failed, some "boom"⟩ else ⟨.processing, none⟩) 3 1).2
      (by decide) (by decide) (by decide)
    simpa [jsOrElse] using this

/-- C4 counterexample: a caller that cancels during the very first
inter-attempt wait does not stop the poller. Against a task stuck in
`processing` with three attempts, fetches two and three still happen and the
run ends in timeout, not in a cancelled outcome. -/
theorem pollBuildTask_cancel_ignored_counterexample :
    pollBuildTaskUnderCancellation (fun _ => ⟨.processing, none⟩) (fun _ => true) 0 3 =
        (.timeout,
          [⟨.processing, none⟩, ⟨.processing, none⟩, ⟨.processing, none⟩]) ∧
      (.timeout : PollOutcome) ≠ .cancelled := by
  constructor
  · rfl
  · intro hc
    cases hc

/-- C4 amended: the sleep between attempts is not cancellable. `pollBuildTask`
consults no cancellation signal, so the run is identical for every cancellation
behaviour of the caller, and no run ever ends in a cancelled outcome. -/
theorem pollBuildTask_not_cancellable (tasks : Nat → BuildTask)
    (cancel : Nat → Bool) (i n : Nat) :
    pollBuildTaskUnderCancellation tasks cancel i n = pollBuildTaskGo tasks i n ∧
      (pollBuildTaskGo tasks i n).1 ≠ .cancelled := by
  induction n generalizing i with
  | zero =>
    refine ⟨rfl, ?_⟩
    intro hc
    cases hc
  | succ r ih =>
    by_cases hs : (tasks i).status = .success
    · refine ⟨?_, ?_⟩
      · simp [pollBuildTaskUnderCancellation, pollBuildTaskGo, hs]
      · simp only [pollBuildTaskGo, hs, if_true]
        intro hc
        cases hc
    · by_cases hf : (tasks i).status = .failed
      · refine ⟨?_, ?_⟩
        · simp [pollBuildTaskUnderCancellation, pollBuildTaskGo, hs, hf]
        · simp only [pollBuildTaskGo, hs, hf, if_true, if_false]
          intro hc
          cases hc
      · have := ih (i + 1)
        refine ⟨?_, ?_⟩
        · simp [pollBuildTaskUnderCancellation, pollBuildTaskGo, hs, hf, this.1]
        · simp only [pollBuildTaskGo, hs, hf, if_false]
          exact this.2

/-- Witness for the amended C4 at a concrete run: two attempts against a stuck
task with cancellation requested throughout behave exactly like the run with
no cancellation, and do not end cancelled. -/
theorem pollBuildTask_not_cancellable_witness :
    pollBuildTaskUnderCancellation (fun _ => ⟨.processing, none⟩) (fun _ => true)
        0 2 = pollBuildTaskGo (fun _ => ⟨.processing, none⟩) 0 2 ∧
      (pollBuildTaskGo (fun _ => ⟨.processing, none⟩) 0 2).1 ≠
        PollOutcome.cancelled :=
  pollBuildTask_not_cancellable (fun _ => ⟨.processing, none⟩) (fun _ => true) 0 2

/-! ## Chat container send flow (ChatContainer.tsx lines 82-243) -/

/-- The slice of a chat `Message` record the container flow reads and writes:
identifier, role, streamed content, the independent thinking buffer, and the
transient `loading` / `statusText` pair. -/
structure Msg where
  id : String
  role : String
  content : String
  thinkingContent : Option String
  loading : Bool
  statusText : Option String
  timestamp : Nat
  deriving DecidableEq, Repr

/-- The container state the send flow mutates: the `messages` list, the
`error` banner state, and the `currentMessageIdRef` ref. -/
structure ContainerState where
  messages : List Msg
  error : Option String
  currentMessageId : Option String
  deriving DecidableEq, Repr

/-- The `onStart` callback (ChatContainer.tsx lines 144-155): update the ref to
the canonical message id and remap the provisional placeholder id. -/
def onStart (tempAssistantId messageId : String) (s : ContainerState) :
    ContainerState :=
  { s with
    currentMessageId := some messageId,
    messages := s.messages.map fun m =>
      if m.id = tempAssistantId then
        { m with id := messageId, statusText := some "AI 思考中..." }
      else m }

/-- The `onChunk` callback (lines 156-179): no-op when the ref is cleared;
otherwise append the chunk to the thinking buffer or the content of the
message named by the ref. -/
def onChunk (chunk : String) (thinking : Bool) (s : ContainerState) :
    ContainerState :=
  match s.currentMessageId with
  | none => s
  | some currentId =>
    { s with
      messages := s.messages.map fun m =>
        if m.id = currentId then
          if thinking then
            { m with
              thinkingContent := some ((m.thinkingContent.getD "") ++ chunk),
              loading := false }
          else
            { m with
              content := m.content ++ chunk,
              loading := false,
              statusText := none }
        else m }

/-- The `onEnd` callback (lines 180-196): no-op when the ref is cleared;
otherwise finalize the identifier and clear the transient fields of the
message named by the ref or already carrying the final id. -/
def onEnd (messageId : String) (s : ContainerState) : ContainerState :=
  match s.currentMessageId with
  | none => s
  | some currentId =>
    { s with
      messages := s.messages.map fun m =>
        if m.id = currentId ∨ m.id = messageId then
          { m with id := messageId, loading := false, statusText := none }
        else m }

/-- The `onError` callback (lines 197-205): `setError` runs unconditionally,
then the message named by the ref (when one is) is removed. -/
def onError (e : String) (s : ContainerState) : ContainerState :=
  let s1 : ContainerState := { s with error := some e }
  match s1.currentMessageId with
  | none => s1
  | some currentId =>
    { s1 with messages := s1.messages.filter fun m => m.id != currentId }

/-- A decoded chat stream event, as delivered to the container callbacks. -/
inductive StreamEvent
  | startEv (messageId : String)
  | chunkEv (chunk : String) (thinking : Bool)
  | endEv (messageId : String)
  | errorEv (message : String)
  deriving DecidableEq, Repr

/-- Dispatch one stream event to the matching callback. -/
def applyEvent (tempAssistantId : String) (s : ContainerState) :
    StreamEvent → ContainerState
  | .startEv mid => onStart tempAssistantId mid s
  | .chunkEv c th => onChunk c th s
  | .endEv mid => onEnd mid s
  | .errorEv e => onError e s

/-- Apply a whole script of stream events in arrival order. -/
def applyEvents (tempAssistantId : String) (s : ContainerState) :
    List StreamEvent → ContainerState
  | [] => s
  | e :: es => applyEvents tempAssistantId (applyEvent tempAssistantId s e) es

/-- The cleanup step `if (currentId) setMessages(prev.filter(...))` shared by
both branches of the container catch block (lines 210-226). -/
def removeCurrent (s : ContainerState) : ContainerState :=
  match s.currentMessageId with
  | none => s
  | some currentId =>
    { s with messages := s.messages.filter fun m => m.id != currentId }

/-- How the awaited `sendMessageStream` call ends, seen from the container.
`done` is a normal return (also after an in-stream `error` event, which does
not throw). `transportError e` is any thrown error not named `AbortError`.
`abortError` is an `AbortError` escaping `fetch`/`read` when the caller
aborts: the chatApi catch (chatApi.ts lines 256-262) first invokes
`callbacks.onError('请求已取消')` and then rethrows, after which the container
catch takes its silent AbortError branch. `abortedSignalCheck` is the
`signal?.aborted` check (chatApi.ts lines 210-213), which throws a plain
`Error('请求已取消')` whose name is not `AbortError`, so the container catch
takes its error branch and calls `setError`. -/
inductive StreamTermination
  | done
  | transportError (e : String)
  | abortError
  | abortedSignalCheck
  deriving DecidableEq, Repr

/-- Apply the catch-block handling for each way the stream call ends. -/
def runTermination (s : ContainerState) : StreamTermination → ContainerState
  | .done => s
  | .transportError e => removeCurrent { s with error := some e }
  | .abortError => removeCurrent (onError "请求已取消" s)
  | .abortedSignalCheck => removeCurrent { s with error := some "请求已取消" }

/-- The slice of an attachment the send flow uses: its id and the optional
client-local file handle to upload. -/
structure Attachment where
  id : String
  file : Option String
  deriving DecidableEq, Repr

/-- The backend calls the send flow can issue, in order. -/
inductive ApiCall
  | uploadFile (handle : String)
  | sendMessageStream (fileIds : Option (List String))
  deriving DecidableEq, Repr

/-- The sequential upload loop (ChatContainer.tsx lines 117-125): upload each
attachment's file in order, collecting ids, stopping at the first failure.
Returns the upload calls issued and the collected file ids or the error. -/
def uploadPhase (upload : String → Except String String) :
    List Attachment → List ApiCall × Except String (List String)
  | [] => ([], .ok [])
  | a :: rest =>
    match a.file with
    | none => uploadPhase upload rest
    | some f =>
      match upload f with
      | .error e => ([.uploadFile f], .error e)
      | .ok fid =>
        let r := uploadPhase upload rest
        (.uploadFile f :: r.1, r.2.map fun fids => fid :: fids)

/-- The optimistic user message appended at send time (lines 90-97), with the
client-generated id `user-<Date.now()>`. -/
def userMsgOf (now : Nat) (content : String) : Msg :=
  ⟨"user-" ++ toString now, "user", content, none, false, none, now⟩

/-- The provisional assistant placeholder (lines 100-110), with the
client-generated id `assistant-temp-<Date.now()>`. -/
def tempAssistantMsgOf (now : Nat) : Msg :=
  ⟨"assistant-temp-" ++ toString now, "assistant", "", none, true,
    some "连接中...", now⟩

/-- The `finally` block (lines 227-231): the ref is cleared. -/
def finalizeSend (s : ContainerState) : ContainerState :=
  { s with currentMessageId := none }

/-- The whole `handleSendMessage` flow (lines 82-232) for an initialized
conversation: append the optimistic user message and the placeholder, clear
the error, upload attachments sequentially (a failure goes to the catch
block's error branch without calling `sendMessageStream`), then stream with
the given event script and termination, then run the `finally` block.
Returns the backend calls issued and the final container state. -/
def handleSendMessage (ms : List Msg) (error0 : Option String) (content : String)
    (atts : List Attachment) (now : Nat) (upload : String → Except String String)
    (evs : List StreamEvent) (term : StreamTermination) :
    List ApiCall × ContainerState :=
  let tempId := "assistant-temp-" ++ toString now
  let s0 : ContainerState :=
    { messages := ms ++ [userMsgOf now content, tempAssistantMsgOf now],
      error := error0,
      currentMessageId := some tempId }
  let s1 : ContainerState := { s0 with error := none }
  match uploadPhase upload atts with
  | (calls, .error e) =>
    (calls, finalizeSend (removeCurrent { s1 with error := some e }))
  | (calls, .ok fids) =>
    let s2 := applyEvents tempId s1 evs
    let s3 := runTermination s2 term
    (calls ++ [.sendMessageStream (if fids = [] then none else some fids)],
      finalizeSend s3)

lemma map_if_neg_all {p : Msg → Prop} [DecidablePred p] (f : Msg → Msg)
    (L : List Msg) (h : ∀ m ∈ L, ¬ p m) :
    (L.map fun m => if p m then f m else m) = L := by
  induction L with
  | nil => rfl
  | cons a l ih =>
    rw [List.map_cons, if_neg (h a (List.mem_cons_self a l)),
      ih fun m hm => h m (List.mem_cons_of_mem a hm)]

lemma map_if_append_last {p : Msg → Prop} [DecidablePred p] (f : Msg → Msg)
    (L : List Msg) (a : Msg) (hL : ∀ m ∈ L, ¬ p m) (ha : p a) :
    ((L ++ [a]).map fun m => if p m then f m else m) = L ++ [f a] := by
  rw [List.map_append, map_if_neg_all f L hL]
  simp [ha]

lemma filter_bne_all (cid : String) (L : List Msg) (h : ∀ m ∈ L, m.id ≠ cid) :
    (L.filter fun m => m.id != cid) = L := by
  rw [List.filter_eq_self]
  intro m hm
  simpa using h m hm

lemma filter_bne_append_last (cid : String) (L : List Msg) (a : Msg)
    (h : ∀ m ∈ L, m.id ≠ cid) (ha : a.id = cid) :
    ((L ++ [a]).filter fun m => m.id != cid) = L := by
  rw [List.filter_append, filter_bne_all cid L h]
  simp [ha]

/-- Well-formed chat stream scripts, indexed by the id the
`currentMessageIdRef` ref holds while the remaining events arrive: chunk and
error events are unrestricted, an end event carries the current id, and a
start event may only occur while the ref still holds the provisional
placeholder id, switching it to a fresh canonical id. This is the protocol
shape the backend contract describes (one `start`, then content, then one
terminal event). -/
inductive ScriptWF (tempId : String) (Fresh : String → Prop) :
    String → List StreamEvent → Prop
  | nil (cid : String) : ScriptWF tempId Fresh cid []
  | chunk (cid : String) (c : String) (th : Bool) (evs : List StreamEvent) :
      ScriptWF tempId Fresh cid evs →
      ScriptWF tempId Fresh cid (StreamEvent.chunkEv c th :: evs)
  | err (cid e : String) (evs : List StreamEvent) :
      ScriptWF tempId Fresh cid evs →
      ScriptWF tempId Fresh cid (StreamEvent.errorEv e :: evs)
  | ende (cid : String) (evs : List StreamEvent) :
      ScriptWF tempId Fresh cid evs →
      ScriptWF tempId Fresh cid (StreamEvent.endEv cid :: evs)
  | start (mid : String) (evs : List StreamEvent) :
      Fresh mid → ScriptWF tempId Fresh mid evs →
      ScriptWF tempId Fresh tempId (StreamEvent.startEv mid :: evs)

/-- The in-flight shape of the container state: the ref names `cid`, and the
message list is the base list plus one live assistant message with id `cid`. -/
def Alive (B : List Msg) (cid : String) (s : ContainerState) : Prop :=
  s.currentMessageId = some cid ∧
    ∃ am, am.role = "assistant" ∧ am.id = cid ∧ s.messages = B ++ [am]

/-- The cleaned-up shape: the ref names `cid` and the message list is exactly
the base list (the in-progress assistant message is gone). -/
def Removed (B : List Msg) (cid : String) (s : ContainerState) : Prop :=
  s.currentMessageId = some cid ∧ s.messages = B

lemma onChunk_alive {B : List Msg} {cid : String} (c : String) (th : Bool)
    {s : ContainerState} (hfresh : ∀ m ∈ B, m.id ≠ cid)
    (h : Alive B cid s) : Alive B cid (onChunk c th s) := by
  obtain ⟨msgs, err, curr⟩ := s
  obtain ⟨href, am, hrole, hid, hmsg⟩ := h
  have hc : curr = some cid := href
  have hm : msgs = B ++ [am] := hmsg
  subst hc
  subst hm
  refine ⟨rfl, _, ?_, ?_,
    map_if_append_last (p := fun m => m.id = cid)
      (f := fun m =>
        if th then
          { m with
            thinkingContent := some ((m.thinkingContent.getD "") ++ c),
            loading := false }
        else
          { m with
            content := m.content ++ c,
            loading := false,
            statusText := none })
      B am (fun m hm => hfresh m hm) hid⟩
  · cases th <;> simpa using hrole
  · cases th <;> simpa using hid

lemma onEnd_alive {B : List Msg} {cid : String} {s : ContainerState}
    (hfresh : ∀ m ∈ B, m.id ≠ cid) (h : Alive B cid s) :
    Alive B cid (onEnd cid s) := by
  obtain ⟨msgs, err, curr⟩ := s
  obtain ⟨href, am, hrole, hid, hmsg⟩ := h
  have hc : curr = some cid := href
  have hm : msgs = B ++ [am] := hmsg
  subst hc
  subst hm
  refine ⟨rfl, _, ?_, ?_,
    map_if_append_last (p := fun m => m.id = cid ∨ m.id = cid)
      (f := fun m => { m with id := cid, loading := false, statusText := none })
      B am (fun m hm hor => hor.elim (hfresh m hm) (hfresh m hm)) (Or.inl hid)⟩
  · simpa using hrole
  · simp

lemma onStart_alive {B : List Msg} {tempId : String} (mid : String)
    {s : ContainerState} (hT : ∀ m ∈ B, m.id ≠ tempId)
    (h : Alive B tempId s) : Alive B mid (onStart tempId mid s) := by
  obtain ⟨msgs, err, curr⟩ := s
  obtain ⟨href, am, hrole, hid, hmsg⟩ := h
  have hc : curr = some tempId := href
  have hm : msgs = B ++ [am] := hmsg
  subst hc
  subst hm
  refine ⟨rfl, _, ?_, ?_,
    map_if_append_last (p := fun m => m.id = tempId)
      (f := fun m => { m with id := mid, statusText := some "AI 思考中..." })
      B am (fun m hm => hT m hm) hid⟩
  · simpa using hrole
  · simp

lemma onError_alive {B : List Msg} {cid : String} (e : String)
    {s : ContainerState} (hfresh : ∀ m ∈ B, m.id ≠ cid)
    (h : Alive B cid s) : Removed B cid (onError e s) := by
  obtain ⟨msgs, err, curr⟩ := s
  obtain ⟨href, am, hrole, hid, hmsg⟩ := h
  have hc : curr = some cid := href
  have hm : msgs = B ++ [am] := hmsg
  subst hc
  subst hm
  exact ⟨rfl, filter_bne_append_last cid B am hfresh hid⟩

lemma onChunk_removed {B : List Msg} {cid : String} (c : String) (th : Bool)
    {s : ContainerState} (hfresh : ∀ m ∈ B, m.id ≠ cid)
    (h : Removed B cid s) : Removed B cid (onChunk c th s) := by
  obtain ⟨msgs, err, curr⟩ := s
  obtain ⟨href, hmsg⟩ := h
  have hc : curr = some cid := href
  have hm : msgs = B := hmsg
  subst hc
  refine ⟨rfl, ?_⟩
  rw [hm]
  exact map_if_neg_all (p := fun m => m.id = cid) _ B fun m hmm => hfresh m hmm

lemma onEnd_removed {B : List Msg} {cid : String} {s : ContainerState}
    (hfresh : ∀ m ∈ B, m.id ≠ cid) (h : Removed B cid s) :
    Removed B cid (onEnd cid s) := by
  obtain ⟨msgs, err, curr⟩ := s
  obtain ⟨href, hmsg⟩ := h
  have hc : curr = some cid := href
  have hm : msgs = B := hmsg
  subst hc
  refine ⟨rfl, ?_⟩
  rw [hm]
  exact map_if_neg_all (p := fun m => m.id = cid ∨ m.id = cid) _ B
    fun m hmm hor => hor.elim (hfresh m hmm) (hfresh m hmm)

lemma onStart_removed {B : List Msg} {tempId : String} (mid : String)
    {s : ContainerState} (hT : ∀ m ∈ B, m.id ≠ tempId)
    (h : Removed B tempId s) : Removed B mid (onStart tempId mid s) := by
  obtain ⟨msgs, err, curr⟩ := s
  obtain ⟨href, hmsg⟩ := h
  have hc : curr = some tempId := href
  have hm : msgs = B := hmsg
  subst hc
  refine ⟨rfl, ?_⟩
  rw [hm]
  exact map_if_neg_all (p := fun m => m.id = tempId) _ B fun m hmm => hT m hmm

lemma onError_removed {B : List Msg} {cid : String} (e : String)
    {s : ContainerState} (hfresh : ∀ m ∈ B, m.id ≠ cid)
    (h : Removed B cid s) : Removed B cid (onError e s) := by
  obtain ⟨msgs, err, curr⟩ := s
  obtain ⟨href, hmsg⟩ := h
  have hc : curr = some cid := href
  have hm : msgs = B := hmsg
  subst hc
  refine ⟨rfl, ?_⟩
  rw [hm]
  exact filter_bne_all cid B hfresh

/-- Once the in-progress assistant message has been removed, no later
well-formed event brings an assistant message back: the message list stays at
the base list, while the ref may still be remapped by a start event. -/
lemma applyEvents_removed (tempId : String) (B : List Msg)
    (hT : ∀ m ∈ B, m.id ≠ tempId) :
    ∀ (evs : List StreamEvent) (cid : String) (s : ContainerState),
      ScriptWF tempId (fun x => ∀ m ∈ B, m.id ≠ x) cid evs →
      (∀ m ∈ B, m.id ≠ cid) →
      Removed B cid s →
      ∃ cid', (∀ m ∈ B, m.id ≠ cid') ∧
        Removed B cid' (applyEvents tempId s evs) := by
  intro evs cid s hwf
  induction hwf generalizing s with
  | nil cid =>
    intro hfresh h
    exact ⟨cid, hfresh, h⟩
  | chunk cid c th evs hwf ih =>
    intro hfresh h
    exact ih (onChunk c th s) hfresh (onChunk_removed c th hfresh h)
  | err cid e evs hwf ih =>
    intro hfresh h
    exact ih (onError e s) hfresh (onError_removed e hfresh h)
  | ende cid evs hwf ih =>
    intro hfresh h
    exact ih (onEnd cid s) hfresh (onEnd_removed hfresh h)
  | start mid evs hF hwf ih =>
    intro hfresh h
    exact ih (onStart tempId mid s) hF (onStart_removed mid hT h)

/-- Running a well-formed script from a live state keeps the state in the
live-or-removed shape with the ref naming a fresh id, and if any error event
occurred along the way the in-progress assistant message is gone. -/
lemma applyEvents_invariant (tempId : String) (B : List Msg)
    (hT : ∀ m ∈ B, m.id ≠ tempId) :
    ∀ (evs : List StreamEvent) (cid : String) (s : ContainerState),
      ScriptWF tempId (fun x => ∀ m ∈ B, m.id ≠ x) cid evs →
      (∀ m ∈ B, m.id ≠ cid) →
      Alive B cid s →
      ∃ cid', (∀ m ∈ B, m.id ≠ cid') ∧
        (Removed B cid' (applyEvents tempId s evs) ∨
          Alive B cid' (applyEvents tempId s evs)) ∧
        ((∃ e, StreamEvent.errorEv e ∈ evs) →
          (applyEvents tempId s evs).messages = B) := by
  intro evs cid s hwf
  induction hwf generalizing s with
  | nil cid =>
    intro hfresh h
    refine ⟨cid, hfresh, Or.inr h, ?_⟩
    rintro ⟨e, he⟩
    cases he
  | chunk cid c th evs hwf ih =>
    intro hfresh h
    obtain ⟨cid', h1, h2, h3⟩ := ih (onChunk c th s) hfresh (onChunk_alive c th hfresh h)
    refine ⟨cid', h1, h2, ?_⟩
    rintro ⟨e, he⟩
    rcases List.mem_cons.1 he with hc | hc
    · cases hc
    · exact h3 ⟨e, hc⟩
  | err cid e evs hwf ih =>
    intro hfresh h
    obtain ⟨cid', h1, h2⟩ := applyEvents_removed tempId B hT evs cid (onError e s)
      hwf hfresh (onError_alive e hfresh h)
    exact ⟨cid', h1, Or.inl h2, fun _ => h2.2⟩
  | ende cid evs hwf ih =>
    intro hfresh h
    obtain ⟨cid', h1, h2, h3⟩ := ih (onEnd cid s) hfresh (onEnd_alive hfresh h)
    refine ⟨cid', h1, h2, ?_⟩
    rintro ⟨e, he⟩
    rcases List.mem_cons.1 he with hc | hc
    · cases hc
    · exact h3 ⟨e, hc⟩
  | start mid evs hF hwf ih =>
    intro hfresh h
    obtain ⟨cid', h1, h2, h3⟩ := ih (onStart tempId mid s) hF (onStart_alive mid hT h)
    refine ⟨cid', h1, h2, ?_⟩
    rintro ⟨e, he⟩
    rcases List.mem_cons.1 he with hc | hc
    · cases hc
    · exact h3 ⟨e, hc⟩

lemma removeCurrent_messages (B : List Msg) (cid : String) (s : ContainerState)
    (hfresh : ∀ m ∈ B, m.id ≠ cid)
    (h : Removed B cid s ∨ Alive B cid s) :
    (removeCurrent s).messages = B := by
  obtain ⟨msgs, err, curr⟩ := s
  rcases h with ⟨href, hmsg⟩ | ⟨href, am, hrole, hid, hmsg⟩
  · have hc : curr = some cid := href
    have hm : msgs = B := hmsg
    subst hc
    show List.filter _ msgs = B
    rw [hm]
    exact filter_bne_all cid B hfresh
  · have hc : curr = some cid := href
    have hm : msgs = B ++ [am] := hmsg
    subst hc
    subst hm
    exact filter_bne_append_last cid B am hfresh hid

/-- Every failing or cancelling termination path of the stream call leaves the
message list at the base list: the in-progress assistant message is removed
and nothing else changes in the list. -/
lemma runTermination_failure (B : List Msg) (cid : String) (s : ContainerState)
    (hfresh : ∀ m ∈ B, m.id ≠ cid)
    (h : Removed B cid s ∨ Alive B cid s) :
    ∀ term : StreamTermination, term ≠ .done →
      (runTermination s term).messages = B := by
  intro term hterm
  cases term with
  | done => exact absurd rfl hterm
  | transportError e =>
    show (removeCurrent { s with error := some e }).messages = B
    apply removeCurrent_messages B cid _ hfresh
    rcases h with ⟨h1, h2⟩ | ⟨h1, h2⟩
    · exact Or.inl ⟨h1, h2⟩
    · exact Or.inr ⟨h1, h2⟩
  | abortError =>
    show (removeCurrent (onError "请求已取消" s)).messages = B
    apply removeCurrent_messages B cid _ hfresh
    left
    rcases h with hrem | hal
    · exact onError_removed _ hfresh hrem
    · exact onError_alive _ hfresh hal
  | abortedSignalCheck =>
    show (removeCurrent { s with error := some "请求已取消" }).messages = B
    apply removeCurrent_messages B cid _ hfresh
    rcases h with ⟨h1, h2⟩ | ⟨h1, h2⟩
    · exact Or.inl ⟨h1, h2⟩
    · exact Or.inr ⟨h1, h2⟩

lemma user_ne_temp (now : Nat) :
    ("user-" ++ toString now) ≠ ("assistant-temp-" ++ toString now) := by
  intro h
  have h2 := congrArg String.data h
  rw [String.data_append, String.data_append] at h2
  have hu : "user-".data = ['u', 's', 'e', 'r', '-'] := rfl
  have ha : "assistant-temp-".data =
      ['a', 's', 's', 'i', 's', 't', 'a', 'n', 't', '-', 't', 'e', 'm', 'p', '-'] := rfl
  rw [hu, ha] at h2
  injection h2 with h3 h4
  exact absurd h3 (by decide)

/-- C6: every send that ends in failure or cancellation — an in-stream error
event, a thrown transport error, or a user abort through either abort path —
leaves the message list as the prior messages plus the optimistic user
message: the in-progress assistant message is removed entirely and the user
message is retained. -/
theorem handleSendMessage_failure_removes_assistant
    (ms : List Msg) (error0 : Option String) (content : String)
    (atts : List Attachment) (now : Nat) (upload : String → Except String String)
    (evs : List StreamEvent) (term : StreamTermination)
    (hT : ∀ m ∈ ms, m.id ≠ "assistant-temp-" ++ toString now)
    (hwf : ScriptWF ("assistant-temp-" ++ toString now)
      (fun x => ∀ m ∈ ms ++ [userMsgOf now content], m.id ≠ x)
      ("assistant-temp-" ++ toString now) evs)
    (hfail : (∃ e calls, uploadPhase upload atts = (calls, Except.error e)) ∨
      (∃ e, StreamEvent.errorEv e ∈ evs) ∨ term ≠ StreamTermination.done) :
    (handleSendMessage ms error0 content atts now upload evs term).2.messages =
      ms ++ [userMsgOf now content] := by
  have hTB : ∀ m ∈ ms ++ [userMsgOf now content],
      m.id ≠ "assistant-temp-" ++ toString now := by
    intro m hm
    rcases List.mem_append.1 hm with h1 | h1
    · exact hT m h1
    · have hm1 : m = userMsgOf now content := List.mem_singleton.1 h1
      subst hm1
      exact user_ne_temp now
  have hmsg0 : ms ++ [userMsgOf now content, tempAssistantMsgOf now] =
      (ms ++ [userMsgOf now content]) ++ [tempAssistantMsgOf now] := by simp
  rcases hup : uploadPhase upload atts with ⟨calls, res⟩
  cases res with
  | error e =>
    simp only [handleSendMessage, hup, finalizeSend]
    apply removeCurrent_messages (ms ++ [userMsgOf now content])
      ("assistant-temp-" ++ toString now) _ hTB
    exact Or.inr ⟨rfl, tempAssistantMsgOf now, rfl, rfl, hmsg0⟩
  | ok fids =>
    obtain ⟨cid', h1, h2, h3⟩ :=
      applyEvents_invariant ("assistant-temp-" ++ toString now)
        (ms ++ [userMsgOf now content]) hTB evs
        ("assistant-temp-" ++ toString now)
        { messages := ms ++ [userMsgOf now content, tempAssistantMsgOf now],
          error := none,
          currentMessageId := some ("assistant-temp-" ++ toString now) }
        hwf hTB ⟨rfl, tempAssistantMsgOf now, rfl, rfl, hmsg0⟩
    simp only [handleSendMessage, hup, finalizeSend]
    rcases hfail with ⟨e, calls', heq⟩ | herr | hterm
    · rw [hup] at heq
      simp at heq
    · by_cases hdone : term = StreamTermination.done
      · subst hdone
        exact h3 herr
      · exact runTermination_failure _ cid' _ h1 h2 term hdone
    · exact runTermination_failure _ cid' _ h1 h2 term hterm

/-- Witness for C6 at a concrete run: a send whose stream starts, delivers one
chunk, and then reports an error event ends with exactly the optimistic user
message in the list. -/
theorem handleSendMessage_failure_removes_assistant_witness :
    (handleSendMessage [] none "hi" [] 0 (fun h => Except.ok h)
        [StreamEvent.startEv "m1", StreamEvent.chunkEv "Hel" false,
          StreamEvent.errorEv "boom"]
        StreamTermination.done).2.messages =
      [] ++ [userMsgOf 0 "hi"] :=
  handleSendMessage_failure_removes_assistant [] none "hi" [] 0
    (fun h => Except.ok h)
    [StreamEvent.startEv "m1", StreamEvent.chunkEv "Hel" false,
      StreamEvent.errorEv "boom"]
    StreamTermination.done
    (by intro m hm; cases hm)
    (ScriptWF.start "m1" _ (by intro m hm; simp at hm; subst hm; decide)
      (ScriptWF.chunk _ "Hel" false _
        (ScriptWF.err _ "boom" _ (ScriptWF.nil _))))
    (Or.inr (Or.inl ⟨"boom", by simp⟩))

lemma uploadPhase_fail (upload : String → Except String String) (e : String) :
    ∀ (atts : List Attachment) (good : List String) (f : String)
      (rest' : List String),
      atts.filterMap Attachment.file = good ++ f :: rest' →
      (∀ g ∈ good, ∃ fid, upload g = Except.ok fid) →
      upload f = Except.error e →
      uploadPhase upload atts = ((good ++ [f]).map ApiCall.uploadFile, Except.error e) := by
  intro atts
  induction atts with
  | nil =>
    intro good f rest' hsplit
    simp at hsplit
  | cons a rest ih =>
    intro good f rest' hsplit hgood hfail
    cases ha : a.file with
    | none =>
      rw [List.filterMap_cons_none ha] at hsplit
      simp only [uploadPhase, ha]
      exact ih good f rest' hsplit hgood hfail
    | some g =>
      rw [List.filterMap_cons_some ha] at hsplit
      cases good with
      | nil =>
        simp only [List.nil_append] at hsplit
        injection hsplit with hgf hrest
        subst hgf
        simp only [uploadPhase, ha, hfail]
        simp
      | cons g0 good' =>
        simp only [List.cons_append] at hsplit
        injection hsplit with hgg hrest
        subst hgg
        obtain ⟨fid, hfid⟩ := hgood g (List.mem_cons_self g good')
        simp only [uploadPhase, ha, hfid]
        rw [ih good' f rest' hrest
          (fun x hx => hgood x (List.mem_cons_of_mem g hx)) hfail]
        simp [Except.map]

/-- C5: when the uploads for a send hit a failure — every handle before `f`
uploads fine and `f` fails — the flow issues exactly the upload calls for the
handles up to and including `f`, in attachment order; it never calls
`sendMessageStream`, so no file id is attached to any message submission, and
the send ends in the error state carrying the upload error. -/
theorem handleSendMessage_upload_failure_no_submission
    (ms : List Msg) (error0 : Option String) (content : String)
    (atts : List Attachment) (now : Nat) (upload : String → Except String String)
    (evs : List StreamEvent) (term : StreamTermination)
    (good : List String) (f : String) (rest' : List String) (e : String)
    (hsplit : atts.filterMap Attachment.file = good ++ f :: rest')
    (hgood : ∀ g ∈ good, ∃ fid, upload g = Except.ok fid)
    (hfail : upload f = Except.error e) :
    (handleSendMessage ms error0 content atts now upload evs term).1 =
        (good ++ [f]).map ApiCall.uploadFile ∧
      (∀ fids, ApiCall.sendMessageStream fids ∉
        (handleSendMessage ms error0 content atts now upload evs term).1) ∧
      (handleSendMessage ms error0 content atts now upload evs term).2.error =
        some e := by
  have hup := uploadPhase_fail upload e atts good f rest' hsplit hgood hfail
  refine ⟨?_, ?_, ?_⟩
  · simp only [handleSendMessage, hup]
  · intro fids hmem
    simp only [handleSendMessage, hup] at hmem
    rcases List.mem_map.1 hmem with ⟨h, _, habs⟩
    cases habs
  · simp only [handleSendMessage, hup, finalizeSend, removeCurrent]

/-- Witness for C5: two attachments whose second upload fails produce exactly
the two upload calls, no message-submission call, and the upload error. -/
theorem handleSendMessage_upload_failure_no_submission_witness :
    (handleSendMessage [] none "hi"
          [⟨"a1", some "f1"⟩, ⟨"a2", some "f2"⟩] 0
          (fun h => if h = "f1" then Except.ok "id1" else Except.error "upload failed")
          [] StreamTermination.done).1 =
        (["f1"] ++ ["f2"]).map ApiCall.uploadFile ∧
      (∀ fids, ApiCall.sendMessageStream fids ∉
        (handleSendMessage [] none "hi"
          [⟨"a1", some "f1"⟩, ⟨"a2", some "f2"⟩] 0
          (fun h => if h = "f1" then Except.ok "id1" else Except.error "upload failed")
          [] StreamTermination.done).1) ∧
      (handleSendMessage [] none "hi"
          [⟨"a1", some "f1"⟩, ⟨"a2", some "f2"⟩] 0
          (fun h => if h = "f1" then Except.ok "id1" else Except.error "upload failed")
          [] StreamTermination.done).2.error = some "upload failed" :=
  handleSendMessage_upload_failure_no_submission [] none "hi"
    [⟨"a1", some "f1"⟩, ⟨"a2", some "f2"⟩] 0
    (fun h => if h = "f1" then Except.ok "id1" else Except.error "upload failed")
    [] StreamTermination.done ["f1"] "f2" [] "upload failed"
    (by decide)
    (by
      intro g hg
      have hg1 : g = "f1" := by simpa using hg
      subst hg1
      exact ⟨"id1", rfl⟩)
    (by rfl)

/-- C7: a user cancellation does not stay silent. On the `AbortError` path the
chatApi catch invokes the error callback with `请求已取消`, and on the
`signal?.aborted` path the thrown plain error reaches the container's error
branch; in both cases the error state ends up set (showing the banner), even
though the container's own AbortError branch avoids `setError`. -/
theorem handleSendMessage_cancellation_sets_error :
    ((handleSendMessage [] none "hi" [] 0 (fun h => Except.ok h)
        [StreamEvent.startEv "m1", StreamEvent.chunkEv "Hel" false]
        StreamTermination.abortError).2.error = some "请求已取消") ∧
      ((handleSendMessage [] none "hi" [] 0 (fun h => Except.ok h)
        [StreamEvent.startEv "m1", StreamEvent.chunkEv "Hel" false]
        StreamTermination.abortedSignalCheck).2.error = some "请求已取消") := by
  constructor
  · rfl
  · rfl

/-- C8 counterexample: a late error event arriving for a superseded operation
(the ref is cleared) still mutates the state — the error banner state changes
— so the claim that such events produce no observable state change is false. -/
theorem onError_stale_write_mutates_error :
    (onError "boom" ⟨[], none, none⟩).error = some "boom" ∧
      onError "boom" ⟨[], none, none⟩ ≠ (⟨[], none, none⟩ : ContainerState) := by
  constructor
  · rfl
  · decide

/-- C8 amended: for a superseded operation (the current-message ref no longer
names a target), late chunk and end events produce no state change at all,
and a late error event leaves the message list unchanged but still overwrites
the error state — the stale-write guard protects only the message list. -/
theorem stale_event_guard_amended (s : ContainerState)
    (h : s.currentMessageId = none) (c : String) (th : Bool) (mid e : String) :
    onChunk c th s = s ∧ onEnd mid s = s ∧
      (onError e s).messages = s.messages ∧ (onError e s).error = some e := by
  obtain ⟨msgs, err, curr⟩ := s
  have hc : curr = none := h
  subst hc
  exact ⟨rfl, rfl, rfl, rfl⟩

/-- Witness for the amended C8 at a concrete superseded state. -/
theorem stale_event_guard_amended_witness :
    (⟨[], none, none⟩ : ContainerState).currentMessageId = none ∧
      (onChunk "x" false ⟨[], none, none⟩ = (⟨[], none, none⟩ : ContainerState) ∧
        onEnd "m" ⟨[], none, none⟩ = (⟨[], none, none⟩ : ContainerState) ∧
        (onError "boom" ⟨[], none, none⟩).messages =
          (⟨[], none, none⟩ : ContainerState).messages ∧
        (onError "boom" ⟨[], none, none⟩).error = some "boom") :=
  ⟨rfl, stale_event_guard_amended ⟨[], none, none⟩ rfl "x" false "m" "boom"⟩

/-! ## Response validation before reading a streamed body (chatApi.ts
lines 188-201 and 660-676) -/

/-- JavaScript `String.prototype.includes`: some position of the string starts
with the pattern. -/
def containsSub (pat : List Char) : List Char → Bool
  | [] => pat.isEmpty
  | c :: cs => pat.isPrefixOf (c :: cs) || containsSub pat cs

/-- The test `contentType?.includes('text/event-stream')`, with a null content
type counting as no match (optional chaining yields a falsy value). -/
def includesEventStream : Option String → Bool
  | none => false
  | some ct => containsSub ("text/event-stream".data) ct.data

/-- The response fields the pre-read validation looks at. -/
structure ResponseMeta where
  ok : Bool
  statusText : String
  contentType : Option String
  deriving DecidableEq, Repr

/-- The checks `sendMessageStream` performs on the response before obtaining
the body reader (chatApi.ts lines 188-196): a non-ok status throws, then a
content type that does not include `text/event-stream` throws
`服务器不支持流式响应`. -/
def sendMessageStreamCheckResponse (r : ResponseMeta) : Except String Unit :=
  if r.ok = false then Except.error ("发送消息失败: " ++ r.statusText)
  else if includesEventStream r.contentType = false then
    Except.error "服务器不支持流式响应"
  else Except.ok ()

/-- The checks `executeBuildCommandStream` performs before obtaining the body
reader (chatApi.ts lines 660-676): only the ok status is consulted — there is
no content-type validation; `detail` is the server-supplied error detail. -/
def executeBuildCommandStreamCheckResponse (r : ResponseMeta) (detail : String) :
    Except String Unit :=
  if r.ok = false then Except.error detail else Except.ok ()

/-- C9 counterexample: on an ok response declaring `application/json`, the
chat message stream fails fast with the protocol-mismatch error, but the build
command stream accepts the response and proceeds to read the body — so the
claim that every streaming call fails fast on a non-event-stream content type
is false. -/
theorem buildCommandStream_no_content_type_check :
    sendMessageStreamCheckResponse ⟨true, "OK", some "application/json"⟩ =
        Except.error "服务器不支持流式响应" ∧
      executeBuildCommandStreamCheckResponse ⟨true, "OK", some "application/json"⟩
          "detail" = Except.ok () := by
  constructor
  · rfl
  · rfl

/-- C9 amended: only the chat message stream validates the declared content
type before reading the body — it fails fast with the protocol-mismatch error
on every ok response that does not declare an event stream — while the build
command stream performs no content-type check and proceeds for every ok
response. -/
theorem streaming_content_type_validation (r : ResponseMeta) :
    (r.ok = true → includesEventStream r.contentType = false →
      sendMessageStreamCheckResponse r = Except.error "服务器不支持流式响应") ∧
    (r.ok = true → ∀ detail,
      executeBuildCommandStreamCheckResponse r detail = Except.ok ()) := by
  constructor
  · intro hok hct
    simp [sendMessageStreamCheckResponse, hok, hct]
  · intro hok detail
    simp [executeBuildCommandStreamCheckResponse, hok]

/-- Witness for the amended C9 at a concrete JSON response. -/
theorem streaming_content_type_validation_witness :
    ((⟨true, "OK", some "application/json"⟩ : ResponseMeta).ok = true ∧
      includesEventStream
        (⟨true, "OK", some "application/json"⟩ : ResponseMeta).contentType = false) ∧
      sendMessageStreamCheckResponse ⟨true, "OK", some "application/json"⟩ =
        Except.error "服务器不支持流式响应" ∧
      executeBuildCommandStreamCheckResponse ⟨true, "OK", some "application/json"⟩
        "d" = Except.ok () :=
  ⟨⟨rfl, by decide⟩,
    (streaming_content_type_validation _).1 rfl (by decide),
    (streaming_content_type_validation _).2 rfl "d"⟩

/-! ## XML type detection `detectXmlType` (chatApi.ts lines 457-471) -/

/-- The backtick character of the fence markers. -/
def backtick : Char := Char.ofNat 96

/-- Remove every occurrence of the fenced-code opener — three backticks,
`xml`, and an optional following newline — scanning left to right: the first
`replace` with the global fence pattern. -/
def stripFenceXml : List Char → List Char
  | c1 :: c2 :: c3 :: c4 :: c5 :: c6 :: rest =>
    if c1 = backtick ∧ c2 = backtick ∧ c3 = backtick ∧
        c4 = 'x' ∧ c5 = 'm' ∧ c6 = 'l' then
      match rest with
      | '\n' :: rs => stripFenceXml rs
      | rs => stripFenceXml rs
    else c1 :: stripFenceXml (c2 :: c3 :: c4 :: c5 :: c6 :: rest)
  | s => s

/-- Remove every occurrence of three backticks with an optional following
newline: the second `replace` with the global fence pattern. -/
def stripFence : List Char → List Char
  | c1 :: c2 :: c3 :: rest =>
    if c1 = backtick ∧ c2 = backtick ∧ c3 = backtick then
      match rest with
      | '\n' :: rs => stripFence rs
      | rs => stripFence rs
    else c1 :: stripFence (c2 :: c3 :: rest)
  | s => s

/-- A JavaScript regex word character, for the word-boundary assertion. -/
def isWordChar (c : Char) : Bool := c.isAlphanum || c = '_'

/-- Whether the regex `<TAG\b` matches at the head of the string: a literal
`<TAG` whose next character, if any, is not a word character. -/
def tagMatchAt (tag : List Char) (s : List Char) : Bool :=
  ('<' :: tag).isPrefixOf s &&
    (match s.drop (tag.length + 1) with
     | [] => true
     | d :: _ => !(isWordChar d))

/-- Whether the regex `<TAG\b` matches anywhere in the string. -/
def hasOpenTag (tag : List Char) : List Char → Bool
  | [] => false
  | c :: cs => tagMatchAt tag (c :: cs) || hasOpenTag tag cs

/-- The type detection (chatApi.ts lines 457-471): strip the two fence
patterns, trim, then test for `<entity`, `<setting`, `<endpoint` tags in that
order, returning `orm`, `config`, `api`, or nothing. -/
def detectXmlType (xmlContent : String) : Option String :=
  let cleaned := trimChars (stripFence (stripFenceXml xmlContent.data))
  if hasOpenTag ("entity".data) cleaned then some "orm"
  else if hasOpenTag ("setting".data) cleaned then some "config"
  else if hasOpenTag ("endpoint".data) cleaned then some "api"
  else none

/-- C10: after fence stripping and trimming, an `<entity` tag yields `orm`
regardless of the other tags; otherwise a `<setting` tag yields `config`;
otherwise an `<endpoint` tag yields `api`; with none of them the result is
nothing — entity takes precedence over setting, which takes precedence over
endpoint. -/
theorem detectXmlType_precedence (s : String) :
    (hasOpenTag ("entity".data)
        (trimChars (stripFence (stripFenceXml s.data))) = true →
      detectXmlType s = some "orm") ∧
    (hasOpenTag ("entity".data)
        (trimChars (stripFence (stripFenceXml s.data))) = false →
      hasOpenTag ("setting".data)
        (trimChars (stripFence (stripFenceXml s.data))) = true →
      detectXmlType s = some "config") ∧
    (hasOpenTag ("entity".data)
        (trimChars (stripFence (stripFenceXml s.data))) = false →
      hasOpenTag ("setting".data)
        (trimChars (stripFence (stripFenceXml s.data))) = false →
      hasOpenTag ("endpoint".data)
        (trimChars (stripFence (stripFenceXml s.data))) = true →
      detectXmlType s = some "api") ∧
    (hasOpenTag ("entity".data)
        (trimChars (stripFence (stripFenceXml s.data))) = false →
      hasOpenTag ("setting".data)
        (trimChars (stripFence (stripFenceXml s.data))) = false →
      hasOpenTag ("endpoint".data)
        (trimChars (stripFence (stripFenceXml s.data))) = false →
      detectXmlType s = none) := by
  refine ⟨?_, ?_, ?_, ?_⟩
  · intro h1
    simp [detectXmlType, h1]
  · intro h1 h2
    simp [detectXmlType, h1, h2]
  · intro h1 h2 h3
    simp [detectXmlType, h1, h2, h3]
  · intro h1 h2 h3
    simp [detectXmlType, h1, h2, h3]

/-- Witness for C10: a fenced snippet containing both an entity and a setting
tag is detected as `orm` (entity precedence). -/
theorem detectXmlType_precedence_witness :
    hasOpenTag ("entity".data)
        (trimChars (stripFence (stripFenceXml
          ("```xml\n<entity name=\"user\"/>\n<setting key=\"a\"/>\n```").data))) =
        true ∧
      detectXmlType "```xml\n<entity name=\"user\"/>\n<setting key=\"a\"/>\n```" =
        some "orm" :=
  ⟨by decide,
    (detectXmlType_precedence
      "```xml\n<entity name=\"user\"/>\n<setting key=\"a\"/>\n```").1 (by decide)⟩

end AutoChat
